import Mathlib

/-!
Verification of the hash-anchoring and reconciliation core of the
XHack-BlockChain server (`server.js` and its variants).

The development shallowly embeds the JavaScript source:

* `hashData` = SHA-256 (hex digest) of `JSON.stringify` of a record object;
  SHA-256 and the JS JSON serialization are implemented executably below.
* `getHederaHashes` (the replay used by the verification endpoints) and the
  `GET /logs` replay engine are embedded as pure functions over the finite
  list of callback events delivered before the operation settles.
* The HTTP handlers are embedded as pure functions from request data,
  store contents and ledger oracles to responses.
-/

namespace XHack

set_option maxRecDepth 40000

/-! ### SHA-256, as in `crypto.createHash("sha256").update(s).digest("hex")`.

Machine words are `Nat` reduced modulo `2 ^ 32` at every step.
-/

def w32 : Nat := 4294967296

def mask32 : Nat := 4294967295

def add32 (a b : Nat) : Nat := (a + b) % w32

/-- Right rotation of a 32-bit word (argument assumed `< 2 ^ 32`). -/
def rotr32 (n x : Nat) : Nat := x / 2 ^ n + x % 2 ^ n * 2 ^ (32 - n)

def shr32 (n x : Nat) : Nat := x / 2 ^ n

def bigSigma0 (x : Nat) : Nat := rotr32 2 x ^^^ rotr32 13 x ^^^ rotr32 22 x

def bigSigma1 (x : Nat) : Nat := rotr32 6 x ^^^ rotr32 11 x ^^^ rotr32 25 x

def smallSigma0 (x : Nat) : Nat := rotr32 7 x ^^^ rotr32 18 x ^^^ shr32 3 x

def smallSigma1 (x : Nat) : Nat := rotr32 17 x ^^^ rotr32 19 x ^^^ shr32 10 x

def chFn (e f g : Nat) : Nat := (e &&& f) ^^^ ((e ^^^ mask32) &&& g)

def majFn (a b c : Nat) : Nat := (a &&& b) ^^^ (a &&& c) ^^^ (b &&& c)

/-- The 64 SHA-256 round constants (FIPS 180-4), in decimal. -/
def shaK : List Nat :=
  [1116352408, 1899447441, 3049323471, 3921009573, 961987163,
   1508970993, 2453635748, 2870763221, 3624381080, 310598401,
   607225278, 1426881987, 1925078388, 2162078206, 2614888103,
   3248222580, 3835390401, 4022224774, 264347078, 604807628,
   770255983, 1249150122, 1555081692, 1996064986, 2554220882,
   2821834349, 2952996808, 3210313671, 3336571891, 3584528711,
   113926993, 338241895, 666307205, 773529912, 1294757372,
   1396182291, 1695183700, 1986661051, 2177026350, 2456956037,
   2730485921, 2820302411, 3259730800, 3345764771, 3516065817,
   3600352804, 4094571909, 275423344, 430227734, 506948616,
   659060556, 883997877, 958139571, 1322822218, 1537002063,
   1747873779, 1955562222, 2024104815, 2227730452, 2361852424,
   2428436474, 2756734187, 3204031479, 3329325298]

/-- The SHA-256 initial hash value (FIPS 180-4), in decimal. -/
def shaH0 : List Nat :=
  [1779033703, 3144134277, 1013904242,
   2773480762, 1359893119, 2600822924,
   528734635, 1541459225]

/-- Big-endian byte decomposition (`n` bytes) of a natural number. -/
def bytesBE (n v : Nat) : List Nat :=
  (List.range n).map (fun i => v / 2 ^ (8 * (n - 1 - i)) % 256)

/-- SHA-256 padding: append `0x80`, zeros, and the 64-bit big-endian bit
length, reaching a multiple of 64 bytes. -/
def padMessage (msg : List Nat) : List Nat :=
  let zeros := (119 - msg.length % 64) % 64
  msg ++ [128] ++ List.replicate zeros 0 ++ bytesBE 8 (8 * msg.length)

/-- The first 16 words of the message schedule: the block's bytes, big-endian. -/
def blockWords (block : List Nat) : List Nat :=
  (List.range 16).map (fun i =>
    block.getD (4 * i) 0 * 16777216 + block.getD (4 * i + 1) 0 * 65536 +
      block.getD (4 * i + 2) 0 * 256 + block.getD (4 * i + 3) 0)

def scheduleStep (w : List Nat) : List Nat :=
  let n := w.length
  w ++ [add32 (add32 (smallSigma1 (w.getD (n - 2) 0)) (w.getD (n - 7) 0))
          (add32 (smallSigma0 (w.getD (n - 15) 0)) (w.getD (n - 16) 0))]

/-- The full 64-word message schedule of one block. -/
def messageSchedule (block : List Nat) : List Nat :=
  (List.range 48).foldl (fun w _ => scheduleStep w) (blockWords block)

/-- The eight working variables of the compression loop. -/
structure Sha8 where
  a : Nat
  b : Nat
  c : Nat
  d : Nat
  e : Nat
  f : Nat
  g : Nat
  h : Nat
deriving DecidableEq

def roundStep (k wi : Nat) (s : Sha8) : Sha8 :=
  let t1 := add32 s.h (add32 (bigSigma1 s.e) (add32 (chFn s.e s.f s.g) (add32 k wi)))
  let t2 := add32 (bigSigma0 s.a) (majFn s.a s.b s.c)
  ⟨add32 t1 t2, s.a, s.b, s.c, add32 s.d t1, s.e, s.f, s.g⟩

/-- Compress one 64-byte block into the running hash state (8 words). -/
def compressBlock (hs block : List Nat) : List Nat :=
  let w := messageSchedule block
  let s0 : Sha8 :=
    ⟨hs.getD 0 0, hs.getD 1 0, hs.getD 2 0, hs.getD 3 0,
     hs.getD 4 0, hs.getD 5 0, hs.getD 6 0, hs.getD 7 0⟩
  let s := (List.range 64).foldl
    (fun s i => roundStep (shaK.getD i 0) (w.getD i 0) s) s0
  [add32 (hs.getD 0 0) s.a, add32 (hs.getD 1 0) s.b,
   add32 (hs.getD 2 0) s.c, add32 (hs.getD 3 0) s.d,
   add32 (hs.getD 4 0) s.e, add32 (hs.getD 5 0) s.f,
   add32 (hs.getD 6 0) s.g, add32 (hs.getD 7 0) s.h]

/-- Fold the compression function over consecutive 64-byte blocks
(`fuel` bounds the number of blocks; the padded message length is a
multiple of 64, so `fuel = length / 64` consumes it exactly). -/
def processChunks : Nat → List Nat → List Nat → List Nat
  | 0, _, hs => hs
  | fuel + 1, bytes, hs =>
    if bytes.isEmpty then hs
    else processChunks fuel (List.drop 64 bytes) (compressBlock hs (List.take 64 bytes))

/-- SHA-256 digest (32 bytes) of a byte list. -/
def sha256Bytes (msg : List Nat) : List Nat :=
  let padded := padMessage msg
  let hs := processChunks (padded.length / 64) padded shaH0
  (hs.map (bytesBE 4)).flatten

def hexChar (n : Nat) : Char := Char.ofNat (if n < 10 then 48 + n else 87 + n)

/-- Lowercase hex rendering of a byte list, as Node's `digest("hex")`. -/
def bytesToHex (bs : List Nat) : String :=
  String.mk ((bs.map (fun b => [hexChar (b / 16), hexChar (b % 16)])).flatten)

/-- UTF-8 encoding of one character. -/
def utf8Char (c : Char) : List Nat :=
  let u := c.toNat
  if u < 128 then [u]
  else if u < 2048 then [192 + u / 64, 128 + u % 64]
  else if u < 65536 then [224 + u / 4096, 128 + u / 64 % 64, 128 + u % 64]
  else [240 + u / 262144, 128 + u / 4096 % 64, 128 + u / 64 % 64, 128 + u % 64]

/-- UTF-8 encoding of a string, as Node's `update(string)` uses. -/
def utf8Bytes (s : String) : List Nat := (s.toList.map utf8Char).flatten

/-- SHA-256 lowercase-hex digest of a string. -/
def sha256Hex (s : String) : String := bytesToHex (sha256Bytes (utf8Bytes s))

-- Standard test vector: the SHA-256 digest of the string abc.
example : sha256Hex ("abc") =
    "ba7816bf8f01cfea414140de5dae2223b00361a396177a9cb410ff61f20015ad" := by
  decide

/-! ### JS objects and `JSON.stringify`

Every `hashData` call site in the source hashes a flat object whose values
are scalars (strings, numbers, booleans, null, or absent/undefined), so
record payloads are modelled as association lists of scalar JSON values in
insertion order — exactly the information `JSON.stringify` consumes.
Numbers are modelled as integers (every number the server hashes is a JSON
integer; floating-point formatting is out of scope).
-/

inductive JVal where
  | undef
  | null
  | bool (b : Bool)
  | num (n : Int)
  | str (s : String)
deriving DecidableEq

/-- A post-`JSON.parse` JS object: fields in insertion order. -/
abbrev JObj := List (String × JVal)

/-- JS property access `o[k]`: `JSON.parse` keeps the last duplicate key,
so lookup is last-wins; a missing property reads as `undefined`. -/
def getProp (o : JObj) (k : String) : JVal :=
  match o.reverse.find? (fun p => p.1 == k) with
  | some p => p.2
  | none => JVal.undef

/-- JSON string escaping as `JSON.stringify` performs it. -/
def escapeChar (c : Char) : List Char :=
  let u := c.toNat
  if u = 34 then [Char.ofNat 92, Char.ofNat 34]
  else if u = 92 then [Char.ofNat 92, Char.ofNat 92]
  else if u = 8 then [Char.ofNat 92, Char.ofNat 98]
  else if u = 9 then [Char.ofNat 92, Char.ofNat 116]
  else if u = 10 then [Char.ofNat 92, Char.ofNat 110]
  else if u = 12 then [Char.ofNat 92, Char.ofNat 102]
  else if u = 13 then [Char.ofNat 92, Char.ofNat 114]
  else if u < 32 then
    [Char.ofNat 92, Char.ofNat 117, Char.ofNat 48, Char.ofNat 48,
     hexChar (u / 16), hexChar (u % 16)]
  else [c]

def quoteString (s : String) : String :=
  String.mk (Char.ofNat 34 :: ((s.toList.map escapeChar).flatten ++ [Char.ofNat 34]))

def stringifyVal : JVal → String
  | JVal.undef => "null"
  | JVal.null => "null"
  | JVal.bool true => "true"
  | JVal.bool false => "false"
  | JVal.num n => toString n
  | JVal.str s => quoteString s

def lbrace : String := "\x7b"

def rbrace : String := "\x7d"

def commaSep : String := ","

def colonSep : String := ":"

/-- `JSON.stringify` of a flat object: members whose value is `undefined`
are omitted, the rest are serialized in insertion order. -/
def stringifyObj (o : JObj) : String :=
  lbrace ++ String.intercalate commaSep
    (o.filterMap (fun p =>
      if p.2 = JVal.undef then none
      else some (quoteString p.1 ++ colonSep ++ stringifyVal p.2))) ++ rbrace

/-- `hashData` of `server.js`:
`crypto.createHash("sha256").update(JSON.stringify(data)).digest("hex")`. -/
def hashData (o : JObj) : String := sha256Hex (stringifyObj o)

def keyName : String := "name"

def keyBloodType : String := "bloodType"

def keyAge : String := "age"

def keyType : String := "type"

def keyDonorId : String := "donorId"

/-- The object literal the `POST /patients` handler of `test.js` hashes:
the body's fields rebuilt in the fixed order name, bloodType, age. -/
def patientFields (body : JObj) : JObj :=
  [(keyName, getProp body keyName),
   (keyBloodType, getProp body keyBloodType),
   (keyAge, getProp body keyAge)]

/-- The object literal the `POST /organs` handler of `test.js` hashes. -/
def organFields (body : JObj) : JObj :=
  [(keyType, getProp body keyType),
   (keyBloodType, getProp body keyBloodType),
   (keyDonorId, getProp body keyDonorId)]

def patientHash (body : JObj) : String := hashData (patientFields body)

def organHash (body : JObj) : String := hashData (organFields body)

/-- The naive variant (`src/unnamed/part_002`) hashes the raw request body:
`const hash = hashData(patient)`. -/
def naiveBodyHash (body : JObj) : String := hashData body

-- Serialization sanity check.
example :
    stringifyObj [(keyName, JVal.str ("Alice")), (keyAge, JVal.num 30)] =
      "\x7b\x22name\x22:\x22Alice\x22,\x22age\x22:30\x7d" := by rfl

/-! ### Ledger replay used by the verification endpoints:
`getHederaHashes` (`test.js` lines 98-135)

The subscription delivers callbacks until the promise settles; one call is
a pure function of the finite list of callback events delivered within its
10-second window. The timer firing with the promise still pending
corresponds to the event list being exhausted unsettled: the promise then
resolves with the logs collected so far.
-/

def barSep : String := "|"

/-- One decoded entry pushed onto `logs` by `getHederaHashes`. -/
structure LogEntry where
  type : String
  hash : String
deriving DecidableEq

/-- A message delivered to a subscription. The `getHederaHashes` callback
reads only `msg.contents`; the ledger assigns every entry a sequence
number, and the same entry may be delivered more than once. -/
structure HMsg where
  seqNum : Nat
  contents : String
deriving DecidableEq

/-- A callback event of one `getHederaHashes` subscription: a delivered
message, or an invocation of the error callback. -/
inductive HEvent where
  | message (m : HMsg)
  | failure
deriving DecidableEq

def barChar : Char := Char.ofNat 124

def blankStr : String := ""

/-- JS `content.split("|")`: cut the string at every bar. On a one-character
separator this is a structural fold over the characters. -/
def splitBar (s : String) : List String :=
  (s.toList.foldr
    (fun c acc =>
      match acc with
      | [] => [[c]]
      | a :: rest => if c = barChar then [] :: a :: rest else (c :: a) :: rest)
    [[]]).map String.mk

/-- The decode-and-filter of the message callback:
`const [type, hash] = content.split("|")` followed by `if (!type || !hash)`.
`split` cuts at every bar; the destructuring keeps the first two parts; a
missing part reads as `undefined`, and `undefined` and the empty string are
the falsy cases, so the message is skipped iff the first or second part is
empty or missing. -/
def decodeContent (c : String) : Option LogEntry :=
  let parts := splitBar c
  let t := parts.getD 0 blankStr
  let h := parts.getD 1 blankStr
  if t = blankStr ∨ h = blankStr then none else some ⟨t, h⟩

def decodeEvent : HEvent → Option LogEntry
  | HEvent.message m => decodeContent m.contents
  | HEvent.failure => none

/-- Modelled from the spec, for comparison only (the source is
`decodeContent` above): the spec's notion of a well-formed entry — the
contents split on the FIRST bar into exactly two non-empty parts. -/
def specFirstSplitWellFormed (c : String) : Bool :=
  match splitBar c with
  | [] => false
  | [_] => false
  | t :: rest => decide (t ≠ blankStr) &&
      decide (String.intercalate barSep rest ≠ blankStr)

-- JS split semantics checks.
example : splitBar ("a||b") = [("a" : String), blankStr, ("b" : String)] := by decide

example : splitBar blankStr = [blankStr] := by decide

instance {ε α : Type} [DecidableEq ε] [DecidableEq α] : DecidableEq (Except ε α) :=
  fun x y =>
    match x, y with
    | Except.error a, Except.error b =>
      if h : a = b then isTrue (by rw [h]) else isFalse (by simp [h])
    | Except.error _, Except.ok _ => isFalse (by simp)
    | Except.ok _, Except.error _ => isFalse (by simp)
    | Except.ok a, Except.ok b =>
      if h : a = b then isTrue (by rw [h]) else isFalse (by simp [h])

/-- Promise state of one `getHederaHashes` call: the `logs` array, whether
and how the promise has settled, and how many times the subscription was
released — the function keeps no subscription handle and never calls
`unsubscribe`, so no step touches this counter. -/
structure GHHState where
  logs : List LogEntry
  settled : Option (Except Unit (List LogEntry))
  unsubCount : Nat
deriving DecidableEq

def ghhInit : GHHState := ⟨[], none, 0⟩

/-- `logs.length >= expectedCount`; `none` models the default `Infinity`,
which no finite length reaches. -/
def countReached (ec : Option Nat) (n : Nat) : Bool :=
  match ec with
  | some k => decide (k ≤ n)
  | none => false

/-- One callback firing. After the promise has settled its value is fixed;
the error callback rejects (clearing only the timer), the message callback
decodes, skips malformed contents, pushes, and resolves once
`expectedCount` is reached. -/
def ghhStep (ec : Option Nat) (st : GHHState) : HEvent → GHHState
  | HEvent.failure =>
    if st.settled.isSome then st
    else { st with settled := some (Except.error ()) }
  | HEvent.message m =>
    if st.settled.isSome then st
    else
      match decodeContent m.contents with
      | none => st
      | some e =>
        let logs := st.logs ++ [e]
        if countReached ec logs.length then
          { st with logs := logs, settled := some (Except.ok logs) }
        else { st with logs := logs }

def ghhFinal (ec : Option Nat) (events : List HEvent) : GHHState :=
  events.foldl (ghhStep ec) ghhInit

/-- One `getHederaHashes(expectedCount)` call over the events delivered in
its window: the settled value, or — if the timer fires with the promise
still pending — the partial `logs` collected so far. -/
def getHederaHashes (ec : Option Nat) (events : List HEvent) :
    Except Unit (List LogEntry) :=
  match (ghhFinal ec events).settled with
  | some r => r
  | none => Except.ok (ghhFinal ec events).logs

/-! ### The `GET /logs` replay engine (`test.js` lines 251-346) -/

/-- A raw topic message as the SDK delivers it (chunks omitted). -/
structure TopicMsg where
  seqNum : Nat
  contents : String
  timestamp : String
  runningHash : String
  transactionId : Option String
deriving DecidableEq

/-- The output of `parseTopicMessage` (`test.js` 236-249).
`sequenceNumber` is `msg.sequenceNumber.toString()`; the final sort applies
`parseInt` to it, the identity round trip on a decimal numeral, so the
model keeps the numeric value alongside the rendered string. -/
structure ParsedMsg where
  timestamp : String
  seqNum : Nat
  sequenceNumber : String
  message : String
  runningHash : String
  transactionId : Option String
deriving DecidableEq

def parseTopicMessage (m : TopicMsg) : ParsedMsg :=
  ⟨m.timestamp, m.seqNum, toString m.seqNum, m.contents, m.runningHash,
   m.transactionId⟩

/-- State of the `GET /logs` collection loop: the `messages` array and the
`seenSequenceNumbers` set (kept as the list of numbers in insertion
order). -/
structure LogsState where
  messages : List ParsedMsg
  seenSeqs : List Nat
deriving DecidableEq

def logsInit : LogsState := ⟨[], []⟩

/-- `handleMessage` (`test.js` 260-277): drop the message if its sequence
number was already seen, else record the number and push the parsed
message. -/
def handleMessage (st : LogsState) (m : TopicMsg) : LogsState :=
  if m.seqNum ∈ st.seenSeqs then st
  else ⟨st.messages ++ [parseTopicMessage m], st.seenSeqs ++ [m.seqNum]⟩

def seqLe (a b : ParsedMsg) : Bool := decide (a.seqNum ≤ b.seqNum)

/-- `messages.sort((a, b) => parseInt(a.sequenceNumber) - parseInt(b.sequenceNumber))`. -/
def sortBySeq (ms : List ParsedMsg) : List ParsedMsg :=
  ms.mergeSort seqLe

/-- The deduplicated message list the `/logs` loop accumulates from the
arrival list `ms`. -/
def logsCollect (ms : List TopicMsg) : List ParsedMsg :=
  (ms.foldl handleMessage logsInit).messages

/-- The `messages` array `GET /logs` returns when the deliveries within its
window arrive in the order `ms`. -/
def logsMessages (ms : List TopicMsg) : List ParsedMsg :=
  sortBySeq (logsCollect ms)

/-- Callback and timer events of one `GET /logs` subscription, in firing
order: the success callback, the error callback with a message-shaped
payload (handled as a message), the error callback with a genuine error,
the completion callback, and the 10-second timer. -/
inductive LogsEvent where
  | msgCb (m : TopicMsg)
  | errCbMsg (m : TopicMsg)
  | errCbFail
  | completeCb
  | timerFire
deriving DecidableEq

/-- State of the `GET /logs` promise machinery. -/
structure LogsRun where
  hs : LogsState
  settled : Option (Except Unit Unit)
  unsubCount : Nat
  timerCleared : Bool
deriving DecidableEq

def logsRunInit : LogsRun := ⟨logsInit, none, 0, false⟩

/-- `cleanup` (`test.js` 284-287): unconditionally unsubscribes (the
subscription handle is assigned when `subscribe` returns and never
cleared, and there is no released-flag) and clears the timer. -/
def cleanup (r : LogsRun) : LogsRun :=
  { r with unsubCount := r.unsubCount + 1, timerCleared := true }

def settleOk (r : LogsRun) : LogsRun :=
  match r.settled with
  | some _ => r
  | none => { r with settled := some (Except.ok ()) }

def settleErr (r : LogsRun) : LogsRun :=
  match r.settled with
  | some _ => r
  | none => { r with settled := some (Except.error ()) }

/-- One event firing. `onComplete` is `cleanup(); resolve()`; `onError` is
`cleanup(); reject(err)`; the timer invokes `onComplete`; both message
channels run `handleMessage`. -/
def logsStep (r : LogsRun) : LogsEvent → LogsRun
  | LogsEvent.msgCb m => { r with hs := handleMessage r.hs m }
  | LogsEvent.errCbMsg m => { r with hs := handleMessage r.hs m }
  | LogsEvent.errCbFail => settleErr (cleanup r)
  | LogsEvent.completeCb => settleOk (cleanup r)
  | LogsEvent.timerFire => settleOk (cleanup r)

def logsRun (tr : List LogsEvent) : LogsRun := tr.foldl logsStep logsRunInit

/-- The events that enter the teardown path (deadline, completion,
transport error); each runs `cleanup` once. -/
def isTeardown : LogsEvent → Bool
  | LogsEvent.errCbFail => true
  | LogsEvent.completeCb => true
  | LogsEvent.timerFire => true
  | _ => false

/-- The message payload an event delivers to `handleMessage`, if any. -/
def logsEventMsg : LogsEvent → Option TopicMsg
  | LogsEvent.msgCb m => some m
  | LogsEvent.errCbMsg m => some m
  | _ => none

/-! ### The document store and the write path (`POST /patients`, `POST /organs`) -/

/-- A stored patient document (schema `name, bloodType, age` of `test.js`;
fields carried as the scalar JSON values Mongo returns). -/
structure PatientDoc where
  id : String
  name : JVal
  bloodType : JVal
  age : JVal
deriving DecidableEq

/-- A stored organ document (schema `type, bloodType, donorId`). -/
structure OrganDoc where
  id : String
  type : JVal
  bloodType : JVal
  donorId : JVal
deriving DecidableEq

def patientTag : String := "PATIENT"

def organTag : String := "ORGAN"

/-- The anchor message of `POST /patients`. -/
def patientMessage (body : JObj) : String :=
  patientTag ++ barSep ++ patientHash body

/-- The anchor message of `POST /organs`. -/
def organMessage (body : JObj) : String :=
  organTag ++ barSep ++ organHash body

/-- The document `Patient.create(patient)` stores (schema fields of the
body, plus the store-assigned id). -/
def patientDocOf (body : JObj) (newId : String) : PatientDoc :=
  ⟨newId, getProp body keyName, getProp body keyBloodType, getProp body keyAge⟩

def organDocOf (body : JObj) (newId : String) : OrganDoc :=
  ⟨newId, getProp body keyType, getProp body keyBloodType, getProp body keyDonorId⟩

/-- `POST /patients` (`test.js` 59-75). The handler hashes the rebuilt
record, awaits `submitToHedera`, then awaits `Patient.create`, answering
201; any throw lands in the catch block, which answers 500 — in
particular, a failed submission is caught before `Patient.create` runs.
`submit` is the outcome of the awaited ledger submission and `createOk`
that of the awaited store insert; the result is the response status
paired with the store contents after the request. -/
def postPatients (store : List PatientDoc) (body : JObj) (newId : String)
    (submit : Except Unit String) (createOk : Bool) :
    Nat × List PatientDoc :=
  match submit with
  | Except.error _ => (500, store)
  | Except.ok _txId =>
    if createOk then (201, store ++ [patientDocOf body newId])
    else (500, store)

/-- `POST /organs` (`test.js` 78-94), same shape as `postPatients`. -/
def postOrgans (store : List OrganDoc) (body : JObj) (newId : String)
    (submit : Except Unit String) (createOk : Bool) :
    Nat × List OrganDoc :=
  match submit with
  | Except.error _ => (500, store)
  | Except.ok _txId =>
    if createOk then (201, store ++ [organDocOf body newId])
    else (500, store)

/-! ### The verification endpoints (`GET /verify`, `POST /verify`) -/

/-- The hash `GET /verify` recomputes for a stored patient. -/
def computedPatientHash (p : PatientDoc) : String :=
  hashData [(keyName, p.name), (keyBloodType, p.bloodType), (keyAge, p.age)]

/-- The hash `GET /verify` recomputes for a stored organ. -/
def computedOrganHash (o : OrganDoc) : String :=
  hashData [(keyType, o.type), (keyBloodType, o.bloodType), (keyDonorId, o.donorId)]

def keyRecord : String := "record"

def keyId : String := "id"

def keyValid : String := "valid"

def keyComputedHash : String := "computedHash"

def keyReplayComplete : String := "replayComplete"

def patientLit : String := "patient"

def organLit : String := "organ"

/-- The membership test of `GET /verify`: `hederaHashes.has(computed)`
where `hederaHashes = new Set(hederaLogs.map(l => l.hash))`. -/
def hashSetHas (logs : List LogEntry) (h : String) : Bool :=
  (logs.map LogEntry.hash).contains h

/-- The membership test of `POST /verify`:
`hederaLogs.some(l => l.hash === computed)`. -/
def someHashEq (logs : List LogEntry) (h : String) : Bool :=
  logs.any (fun l => l.hash == h)

/-- The result object `GET /verify` pushes for one stored patient. -/
def patientResult (logs : List LogEntry) (p : PatientDoc) : JObj :=
  [(keyRecord, JVal.str patientLit),
   (keyId, JVal.str p.id),
   (keyValid, JVal.bool (hashSetHas logs (computedPatientHash p))),
   (keyComputedHash, JVal.str (computedPatientHash p))]

/-- The result object `GET /verify` pushes for one stored organ. -/
def organResult (logs : List LogEntry) (o : OrganDoc) : JObj :=
  [(keyRecord, JVal.str organLit),
   (keyId, JVal.str o.id),
   (keyValid, JVal.bool (hashSetHas logs (computedOrganHash o))),
   (keyComputedHash, JVal.str (computedOrganHash o))]

/-- The result array of `GET /verify` (`test.js` 139-180), given the
replayed window and the store contents. -/
def bulkVerifyResults (logs : List LogEntry) (patients : List PatientDoc)
    (organs : List OrganDoc) : List JObj :=
  patients.map (patientResult logs) ++ organs.map (organResult logs)

/-- The response object of `POST /verify` for a patient found in the
store. -/
def pointResultPatient (logs : List LogEntry) (p : PatientDoc) : JObj :=
  [(keyRecord, JVal.str patientLit),
   (keyId, JVal.str p.id),
   (keyValid, JVal.bool (someHashEq logs (computedPatientHash p))),
   (keyComputedHash, JVal.str (computedPatientHash p))]

/-- The response object of `POST /verify` for an organ found in the
store. -/
def pointResultOrgan (logs : List LogEntry) (o : OrganDoc) : JObj :=
  [(keyRecord, JVal.str organLit),
   (keyId, JVal.str o.id),
   (keyValid, JVal.bool (someHashEq logs (computedOrganHash o))),
   (keyComputedHash, JVal.str (computedOrganHash o))]

/-- `POST /verify` for a resolved patient id (`test.js` 182-220): the
handler recomputes the hash, calls `getHederaHashes()` with no argument —
`expectedCount` defaults to `Infinity` — and tests membership over the
whole returned window; a rejected replay lands in the catch block (500). -/
def postVerifyPatient (events : List HEvent) (p : PatientDoc) :
    Except Unit JObj :=
  match getHederaHashes none events with
  | Except.error e => Except.error e
  | Except.ok logs => Except.ok (pointResultPatient logs p)

/-- The replay window a `getHederaHashes` call hands to its caller (the
error case carries no window). -/
def ghhWindow (ec : Option Nat) (events : List HEvent) : List LogEntry :=
  match getHederaHashes ec events with
  | Except.ok l => l
  | Except.error _ => []

/-! ### Concrete inputs used by counterexamples and witnesses -/

def aliceStr : String := "Alice"

def oPlusStr : String := "O+"

/-- A patient request body: name, bloodType, age in that insertion order. -/
def bodyAlice : JObj :=
  [(keyName, JVal.str aliceStr), (keyBloodType, JVal.str oPlusStr),
   (keyAge, JVal.num 30)]

/-- The same field values supplied in a different insertion order. -/
def bodyAlicePermuted : JObj :=
  [(keyAge, JVal.num 30), (keyName, JVal.str aliceStr),
   (keyBloodType, JVal.str oPlusStr)]

def pidLit : String := "p1"

def oidLit : String := "o1"

def kidneyStr : String := "kidney"

def txLit : String := "tx1"

/-- A stored patient document with Alice's fields. -/
def patAlice : PatientDoc :=
  ⟨pidLit, JVal.str aliceStr, JVal.str oPlusStr, JVal.num 30⟩

/-- A stored organ document. -/
def orgKidney : OrganDoc :=
  ⟨oidLit, JVal.str kidneyStr, JVal.str oPlusStr, JVal.str pidLit⟩

def aaHash : String := "aa"

def bbHash : String := "bb"

/-- A delivered anchor message with sequence number 1. -/
def dupMsg : HMsg := ⟨1, patientTag ++ barSep ++ aaHash⟩

def goodMsg : HMsg := ⟨3, organTag ++ barSep ++ aaHash⟩

def noBar : String := "nobar"

/-- A malformed delivery: no bar separator in the contents. -/
def badMsg : HMsg := ⟨4, noBar⟩

def tLit : String := "T"

def hLit : String := "h"

/-- Contents with a double bar: splitting on the FIRST bar gives the two
non-empty parts T and bar-h, yet the code's split-at-every-bar gives an
empty second part. -/
def doubleBarContents : String := tLit ++ barSep ++ barSep ++ hLit

/-- The entry anchoring `patAlice`, as the ledger would deliver it. -/
def aliceAnchorMsg : HMsg := ⟨1, patientTag ++ barSep ++ computedPatientHash patAlice⟩

/-- A later, unrelated entry in the same topic. -/
def laterMsg : HMsg := ⟨2, patientTag ++ barSep ++ bbHash⟩

def c7events : List HEvent := [HEvent.message aliceAnchorMsg, HEvent.message laterMsg]

/-- A ledger entry whose type tag is ORGAN but whose hash is the patient's. -/
def organTaggedAnchor : LogEntry := ⟨organTag, computedPatientHash patAlice⟩

def tmA : TopicMsg := ⟨1, patientTag ++ barSep ++ aaHash, blankStr, blankStr, none⟩

def tmB : TopicMsg := ⟨2, organTag ++ barSep ++ aaHash, blankStr, blankStr, none⟩

/-- A second delivery of sequence number 1 (different payload, as a
redelivery across channels may present). -/
def tmADup : TopicMsg := ⟨1, noBar, blankStr, blankStr, none⟩

/-! ## Claim C1 — hash determinism and field-insertion-order independence -/

/-- C1 counterexample: `bodyAlice` and `bodyAlicePermuted` carry the same
field values in different insertion orders, yet the program's `hashData`
applied to the record as supplied — which is exactly what the naive
variant's `POST /patients` does (`src/unnamed/part_002`, `hashData(patient)`)
— produces two different digests, because `JSON.stringify` serializes keys
in insertion order. So `hash(R)` is not independent of the order in which
the caller supplied the record's fields. -/
theorem c1_counterexample :
    getProp bodyAlice keyName = getProp bodyAlicePermuted keyName ∧
    getProp bodyAlice keyBloodType = getProp bodyAlicePermuted keyBloodType ∧
    getProp bodyAlice keyAge = getProp bodyAlicePermuted keyAge ∧
    naiveBodyHash bodyAlice ≠ naiveBodyHash bodyAlicePermuted := by
  exact ⟨by decide, by decide, by decide, by decide⟩

/-- C1 (amended): `hashData` is deterministic (it is a pure function of
its argument), but its digest follows the key insertion order of the
object it is given. The `test.js` handlers first rebuild the record's
fields in a fixed, variant-defined order (`name, bloodType, age` for
patients; `type, bloodType, donorId` for organs), and for those handlers
the digest is independent of the caller's field insertion order: any two
bodies carrying the same field values hash identically. The naive variant
hashes the raw body and is insertion-order dependent (see the
counterexample). -/
theorem c1_fixed_rebuild_order_independent (b b' : JObj)
    (hn : getProp b keyName = getProp b' keyName)
    (hbt : getProp b keyBloodType = getProp b' keyBloodType)
    (ha : getProp b keyAge = getProp b' keyAge) :
    patientHash b = patientHash b' ∧
    ∀ c c' : JObj,
      getProp c keyType = getProp c' keyType →
      getProp c keyBloodType = getProp c' keyBloodType →
      getProp c keyDonorId = getProp c' keyDonorId →
      organHash c = organHash c' := by
  constructor
  · unfold patientHash patientFields
    rw [hn, hbt, ha]
  · intro c c' h1 h2 h3
    unfold organHash organFields
    rw [h1, h2, h3]

/-- Witness for `c1_fixed_rebuild_order_independent`: the two permuted
Alice bodies hash identically under the handler's fixed rebuild. -/
theorem c1_fixed_rebuild_order_independent_witness :
    patientHash bodyAlice = patientHash bodyAlicePermuted :=
  (c1_fixed_rebuild_order_independent bodyAlice bodyAlicePermuted
    (by decide) (by decide) (by decide)).1

/-! ## Claim C2 — deduplication by sequence number -/

/-- C2 counterexample: the replay performed by the verification endpoints
(`getHederaHashes`, used by `GET /verify` and `POST /verify`) keeps no
record of sequence numbers at all: delivering the same sequence number
twice yields TWO entries in the output window, not one. -/
theorem c2_counterexample :
    getHederaHashes none [HEvent.message dupMsg, HEvent.message dupMsg] =
      Except.ok [⟨patientTag, aaHash⟩, ⟨patientTag, aaHash⟩] ∧
    (ghhWindow none [HEvent.message dupMsg, HEvent.message dupMsg]).length = 2 := by
  exact ⟨by decide, by decide⟩

lemma handleMessage_seen_mem (st : LogsState) (m : TopicMsg) (s : Nat) :
    s ∈ (handleMessage st m).seenSeqs ↔ s ∈ st.seenSeqs ∨ s = m.seqNum := by
  unfold handleMessage
  by_cases h : m.seqNum ∈ st.seenSeqs
  · simp only [if_pos h]
    constructor
    · exact Or.inl
    · rintro (hs | rfl)
      · exact hs
      · exact h
  · simp [if_neg h]

lemma foldl_handleMessage_seen_mem (ms : List TopicMsg) :
    ∀ (st : LogsState) (s : Nat),
      s ∈ (ms.foldl handleMessage st).seenSeqs ↔
        s ∈ st.seenSeqs ∨ s ∈ ms.map TopicMsg.seqNum := by
  induction ms with
  | nil => intro st s; simp
  | cons m ms ih =>
    intro st s
    simp only [List.foldl_cons, List.map_cons, List.mem_cons]
    rw [ih, handleMessage_seen_mem]
    tauto

lemma handleMessage_inv (st : LogsState) (m : TopicMsg)
    (h : st.seenSeqs = st.messages.map ParsedMsg.seqNum) :
    (handleMessage st m).seenSeqs =
      (handleMessage st m).messages.map ParsedMsg.seqNum := by
  unfold handleMessage
  by_cases hm : m.seqNum ∈ st.seenSeqs
  · rw [if_pos hm]; exact h
  · rw [if_neg hm]
    simp [h, parseTopicMessage]

lemma handleMessage_seen_nodup (st : LogsState) (m : TopicMsg)
    (h : st.seenSeqs.Nodup) : (handleMessage st m).seenSeqs.Nodup := by
  unfold handleMessage
  by_cases hm : m.seqNum ∈ st.seenSeqs
  · rw [if_pos hm]; exact h
  · rw [if_neg hm]
    simp [List.nodup_append, h, hm]

lemma foldl_handleMessage_inv (ms : List TopicMsg) :
    ∀ st : LogsState,
      st.seenSeqs = st.messages.map ParsedMsg.seqNum →
      (ms.foldl handleMessage st).seenSeqs =
        (ms.foldl handleMessage st).messages.map ParsedMsg.seqNum := by
  induction ms with
  | nil => intro st h; simpa using h
  | cons m ms ih =>
    intro st h
    simp only [List.foldl_cons]
    exact ih _ (handleMessage_inv st m h)

lemma foldl_handleMessage_seen_nodup (ms : List TopicMsg) :
    ∀ st : LogsState, st.seenSeqs.Nodup →
      (ms.foldl handleMessage st).seenSeqs.Nodup := by
  induction ms with
  | nil => intro st h; simpa using h
  | cons m ms ih =>
    intro st h
    simp only [List.foldl_cons]
    exact ih _ (handleMessage_seen_nodup st m h)

/-- The sequence numbers of the collected `/logs` messages: no duplicates,
and exactly the delivered sequence numbers. -/
lemma logsCollect_seqs (ms : List TopicMsg) :
    ((logsCollect ms).map ParsedMsg.seqNum).Nodup ∧
    ∀ s, s ∈ (logsCollect ms).map ParsedMsg.seqNum ↔
      s ∈ ms.map TopicMsg.seqNum := by
  have hinv := foldl_handleMessage_inv ms logsInit rfl
  constructor
  · have hnd := foldl_handleMessage_seen_nodup ms logsInit List.nodup_nil
    rw [hinv] at hnd
    exact hnd
  · intro s
    have hm := foldl_handleMessage_seen_mem ms logsInit s
    rw [hinv] at hm
    simpa [logsCollect, logsInit] using hm

/-- A delivery whose sequence number was already delivered leaves the
collected list unchanged. -/
lemma logsCollect_drop_dup (ms : List TopicMsg) (m' : TopicMsg)
    (h : m'.seqNum ∈ ms.map TopicMsg.seqNum) :
    logsCollect (ms ++ [m']) = logsCollect ms := by
  unfold logsCollect
  rw [List.foldl_append]
  have hseen : m'.seqNum ∈ (ms.foldl handleMessage logsInit).seenSeqs := by
    rw [foldl_handleMessage_seen_mem]
    exact Or.inr h
  simp [handleMessage, hseen]

lemma logsMessages_seq_nodup (ms : List TopicMsg) :
    ((logsMessages ms).map ParsedMsg.seqNum).Nodup := by
  have hperm : (logsMessages ms).Perm (logsCollect ms) :=
    List.mergeSort_perm (logsCollect ms) seqLe
  exact ((hperm.map ParsedMsg.seqNum).nodup_iff).mpr (logsCollect_seqs ms).1

/-- C2 (amended): deduplication by `sequenceNumber` holds for the
`GET /logs` replay engine — a second delivery of an already-seen sequence
number is dropped silently, leaving the output window unchanged, and the
window never holds two entries with the same sequence number — but it does
not hold for the replay the verification endpoints use, which keeps
duplicate deliveries (see `c2_counterexample`). -/
theorem c2_logs_dedup (ms : List TopicMsg) (m' : TopicMsg)
    (hseen : m'.seqNum ∈ ms.map TopicMsg.seqNum) :
    logsMessages (ms ++ [m']) = logsMessages ms ∧
    ((logsMessages ms).map ParsedMsg.seqNum).Nodup := by
  refine ⟨?_, logsMessages_seq_nodup ms⟩
  unfold logsMessages
  rw [logsCollect_drop_dup ms m' hseen]

/-- Witness for `c2_logs_dedup`: redelivering sequence number 1 after
`[tmA, tmB]` leaves the `GET /logs` window unchanged. -/
theorem c2_logs_dedup_witness :
    logsMessages ([tmA, tmB] ++ [tmADup]) = logsMessages [tmA, tmB] ∧
    ((logsMessages [tmA, tmB]).map ParsedMsg.seqNum).Nodup :=
  c2_logs_dedup [tmA, tmB] tmADup (by decide)

/-! ## Claim C6 — output sorted ascending by sequence number -/

lemma seqLe_trans : ∀ a b c : ParsedMsg,
    seqLe a b = true → seqLe b c = true → seqLe a c = true := by
  intro a b c h1 h2
  simp only [seqLe, decide_eq_true_eq] at h1 h2 ⊢
  omega

lemma seqLe_total : ∀ a b : ParsedMsg, (seqLe a b || seqLe b a) = true := by
  intro a b
  simp only [seqLe, Bool.or_eq_true, decide_eq_true_eq]
  omega

lemma logsMessages_sorted (ms : List TopicMsg) :
    List.Sorted (fun a b : ParsedMsg => a.seqNum ≤ b.seqNum) (logsMessages ms) := by
  have hp := @List.sorted_mergeSort ParsedMsg seqLe seqLe_trans seqLe_total
    (logsCollect ms)
  unfold logsMessages sortBySeq
  refine hp.imp ?_
  intro a b h
  simpa [seqLe] using h

lemma logsMessages_seq_mem (ms : List TopicMsg) (s : Nat) :
    s ∈ (logsMessages ms).map ParsedMsg.seqNum ↔ s ∈ ms.map TopicMsg.seqNum := by
  have hperm : ((logsMessages ms).map ParsedMsg.seqNum).Perm
      ((logsCollect ms).map ParsedMsg.seqNum) :=
    (List.mergeSort_perm (logsCollect ms) seqLe).map ParsedMsg.seqNum
  rw [hperm.mem_iff]
  exact (logsCollect_seqs ms).2 s

/-- C6: the window `GET /logs` returns is sorted ascending by sequence
number, and for every permutation of the arrival order the output carries
the same ascending sequence of sequence numbers. (The entries of the
verification endpoints' replay carry no sequence numbers; the spec's
`ReplayWindow` with its `sequenceNumber` ordering is the `/logs` reader's
output.) -/
theorem c6_output_sorted_by_seq (ms : List TopicMsg) :
    List.Sorted (fun a b : ParsedMsg => a.seqNum ≤ b.seqNum) (logsMessages ms) ∧
    ∀ ms' : List TopicMsg, ms.Perm ms' →
      (logsMessages ms).map ParsedMsg.seqNum =
        (logsMessages ms').map ParsedMsg.seqNum := by
  refine ⟨logsMessages_sorted ms, ?_⟩
  intro ms' hp
  have hsort : ∀ ns : List TopicMsg,
      List.Sorted (· ≤ ·) ((logsMessages ns).map ParsedMsg.seqNum) := by
    intro ns
    rw [List.Sorted, List.pairwise_map]
    exact logsMessages_sorted ns
  have hpm : ((logsMessages ms).map ParsedMsg.seqNum).Perm
      ((logsMessages ms').map ParsedMsg.seqNum) := by
    rw [List.perm_ext_iff_of_nodup (logsMessages_seq_nodup ms)
      (logsMessages_seq_nodup ms')]
    intro s
    rw [logsMessages_seq_mem ms s, logsMessages_seq_mem ms' s]
    exact (hp.map TopicMsg.seqNum).mem_iff
  exact List.eq_of_perm_of_sorted hpm (hsort ms) (hsort ms')

/-- Witness for `c6_output_sorted_by_seq`: arrival order `[tmB, tmA]`
(sequence numbers 2 then 1) yields a sorted window with the same sequence
numbers as arrival order `[tmA, tmB]`. -/
theorem c6_output_sorted_by_seq_witness :
    List.Sorted (fun a b : ParsedMsg => a.seqNum ≤ b.seqNum)
      (logsMessages [tmB, tmA]) ∧
    (logsMessages [tmB, tmA]).map ParsedMsg.seqNum =
      (logsMessages [tmA, tmB]).map ParsedMsg.seqNum :=
  ⟨(c6_output_sorted_by_seq [tmB, tmA]).1,
   (c6_output_sorted_by_seq [tmB, tmA]).2 [tmA, tmB] (by decide)⟩

/-! ## Claims C4 and C5 — partial-result policy and malformed tolerance -/

/-- A message whose contents do not decode is a no-op for the replay
state, whether or not the promise has settled. -/
lemma ghhStep_skip (ec : Option Nat) (st : GHHState) (bad : HMsg)
    (h : decodeContent bad.contents = none) :
    ghhStep ec st (HEvent.message bad) = st := by
  simp only [ghhStep]
  by_cases hs : st.settled.isSome
  · rw [if_pos hs]
  · rw [if_neg hs, h]

/-- With no transport error and the stop count never reached, the fold
collects exactly the decoded deliveries, in order, without settling. -/
lemma ghh_fold_ok (ec : Option Nat) (events : List HEvent) :
    ∀ logs0 : List LogEntry,
      (∀ e ∈ events, e ≠ HEvent.failure) →
      (∀ n, ec = some n →
        logs0.length + (events.filterMap decodeEvent).length < n) →
      events.foldl (ghhStep ec) ⟨logs0, none, 0⟩ =
        ⟨logs0 ++ events.filterMap decodeEvent, none, 0⟩ := by
  induction events with
  | nil => intro logs0 _ _; simp
  | cons e es ih =>
    intro logs0 hnf hcount
    match e with
    | HEvent.failure => exact absurd rfl (hnf HEvent.failure (List.mem_cons_self _ _))
    | HEvent.message m =>
      cases hdec : decodeContent m.contents with
      | none =>
        have hfm : (HEvent.message m :: es).filterMap decodeEvent =
            es.filterMap decodeEvent := by
          simp [List.filterMap_cons, decodeEvent, hdec]
        rw [hfm, List.foldl_cons, ghhStep_skip ec _ m hdec]
        refine ih logs0 (fun x hx => hnf x (List.mem_cons_of_mem _ hx)) ?_
        intro n hn
        have := hcount n hn
        rwa [hfm] at this
      | some x =>
        have hfm : (HEvent.message m :: es).filterMap decodeEvent =
            x :: es.filterMap decodeEvent := by
          simp [List.filterMap_cons, decodeEvent, hdec]
        have hcr : countReached ec (logs0.length + 1) = false := by
          cases ec with
          | none => rfl
          | some n =>
            have := hcount n rfl
            rw [hfm] at this
            simp only [List.length_cons] at this
            simp only [countReached, decide_eq_false_iff_not]
            omega
        have hstep : ghhStep ec ⟨logs0, none, 0⟩ (HEvent.message m) =
            ⟨logs0 ++ [x], none, 0⟩ := by
          simp only [ghhStep, hdec]
          simp [List.length_append, hcr]
        rw [hfm, List.foldl_cons, hstep]
        rw [ih (logs0 ++ [x]) (fun y hy => hnf y (List.mem_cons_of_mem _ hy)) ?_]
        · rw [List.append_assoc]
          rfl
        · intro n hn
          have := hcount n hn
          rw [hfm] at this
          simp only [List.length_append, List.length_cons, List.length_nil]
          simp only [List.length_cons] at this
          omega

/-- With no transport error and the stop count out of reach, the replay
resolves normally with exactly the decoded deliveries. -/
lemma getHederaHashes_ok (ec : Option Nat) (events : List HEvent)
    (hnf : ∀ e ∈ events, e ≠ HEvent.failure)
    (hcount : ∀ n, ec = some n → (events.filterMap decodeEvent).length < n) :
    getHederaHashes ec events = Except.ok (events.filterMap decodeEvent) := by
  unfold getHederaHashes ghhFinal
  rw [show (ghhInit = (⟨[], none, 0⟩ : GHHState)) from rfl]
  rw [ghh_fold_ok ec events [] hnf (by simpa using hcount)]
  simp

/-- Along any trace free of genuine transport errors, the `/logs` promise
is pending or resolved — never rejected. -/
lemma logsRun_settled_ok_or_none (tr : List LogsEvent) :
    ∀ r : LogsRun,
      (r.settled = none ∨ r.settled = some (Except.ok ())) →
      (∀ e ∈ tr, e ≠ LogsEvent.errCbFail) →
      ((tr.foldl logsStep r).settled = none ∨
        (tr.foldl logsStep r).settled = some (Except.ok ())) := by
  induction tr with
  | nil => intro r h _; simpa using h
  | cons e es ih =>
    intro r h hnf
    simp only [List.foldl_cons]
    refine ih _ ?_ (fun x hx => hnf x (List.mem_cons_of_mem _ hx))
    match e with
    | LogsEvent.msgCb m => simpa [logsStep] using h
    | LogsEvent.errCbMsg m => simpa [logsStep] using h
    | LogsEvent.errCbFail =>
      exact absurd rfl (hnf LogsEvent.errCbFail (List.mem_cons_self _ _))
    | LogsEvent.completeCb =>
      rcases h with h | h <;> simp [logsStep, settleOk, cleanup, h]
    | LogsEvent.timerFire =>
      rcases h with h | h <;> simp [logsStep, settleOk, cleanup, h]

/-- C4: a replay whose deadline elapses before all expected entries arrive
returns the entries collected so far as a normal, non-error result. For
`getHederaHashes` (no transport error, `expectedCount` not reached), the
resolved value is exactly the decoded deliveries — the empty window
included; for the `GET /logs` engine, the deadline firing after any
error-free trace resolves the promise successfully with the messages
collected so far. -/
theorem c4_deadline_partial_result (ec : Option Nat) (events : List HEvent)
    (hnf : ∀ e ∈ events, e ≠ HEvent.failure)
    (hcount : ∀ n, ec = some n → (events.filterMap decodeEvent).length < n) :
    getHederaHashes ec events = Except.ok (events.filterMap decodeEvent) ∧
    getHederaHashes ec [] = Except.ok [] ∧
    ∀ tr : List LogsEvent, (∀ e ∈ tr, e ≠ LogsEvent.errCbFail) →
      (logsRun (tr ++ [LogsEvent.timerFire])).settled = some (Except.ok ()) := by
  refine ⟨getHederaHashes_ok ec events hnf hcount, rfl, ?_⟩
  intro tr htr
  unfold logsRun
  rw [List.foldl_append]
  have h := logsRun_settled_ok_or_none tr logsRunInit (Or.inl rfl) htr
  rcases h with h | h <;>
    simp [logsStep, settleOk, cleanup, h]

/-- Witness for `c4_deadline_partial_result`: a two-delivery window (one
decodable, one malformed) resolves with the single decoded entry; the
empty window resolves with an empty list; a deadline after one message
resolves the `/logs` promise successfully. -/
theorem c4_deadline_partial_result_witness :
    getHederaHashes none [HEvent.message goodMsg, HEvent.message badMsg] =
      Except.ok [⟨organTag, aaHash⟩] ∧
    getHederaHashes none [] = Except.ok [] ∧
    (logsRun [LogsEvent.msgCb tmA, LogsEvent.timerFire]).settled =
      some (Except.ok ()) := by
  have h := c4_deadline_partial_result none
    [HEvent.message goodMsg, HEvent.message badMsg]
    (by decide) (fun n hn => nomatch hn)
  exact ⟨h.1, h.2.1, h.2.2 [LogsEvent.msgCb tmA] (by decide)⟩

/-- C5 counterexample: the contents `T||h` DO split on the first bar into
the two non-empty parts `T` and `|h`, so the claim calls this entry
well-formed and requires it in the result set; but the code splits at
every bar and destructures the first two parts, sees the empty second
part, and skips the entry — the replayed window is empty. -/
theorem c5_counterexample :
    specFirstSplitWellFormed doubleBarContents = true ∧
    getHederaHashes none [HEvent.message ⟨1, doubleBarContents⟩] =
      Except.ok [] := by
  exact ⟨by decide, by decide⟩

/-- C5 (amended): an entry is malformed for the code when splitting its
contents at every bar leaves the first or second part empty or missing;
such an entry is skipped (with a console diagnostic), never enters the
result set, and does not abort the replay — deleting it from the delivery
sequence leaves the replay's result unchanged, and in an error-free replay
all remaining decodable entries are returned. -/
theorem c5_malformed_skipped (ec : Option Nat) (pre post : List HEvent)
    (bad : HMsg) (hbad : decodeContent bad.contents = none) :
    getHederaHashes ec (pre ++ HEvent.message bad :: post) =
      getHederaHashes ec (pre ++ post) ∧
    ∀ events : List HEvent,
      (∀ e ∈ events, e ≠ HEvent.failure) →
      (∀ n, ec = some n → (events.filterMap decodeEvent).length < n) →
      getHederaHashes ec events = Except.ok (events.filterMap decodeEvent) := by
  constructor
  · have hfin : ghhFinal ec (pre ++ HEvent.message bad :: post) =
        ghhFinal ec (pre ++ post) := by
      unfold ghhFinal
      rw [List.foldl_append, List.foldl_append, List.foldl_cons,
        ghhStep_skip ec _ bad hbad]
    unfold getHederaHashes
    rw [hfin]
  · exact fun events h1 h2 => getHederaHashes_ok ec events h1 h2

/-- Witness for `c5_malformed_skipped`: dropping the malformed `nobar`
delivery leaves the replay unchanged, and the well-formed entry is still
returned. -/
theorem c5_malformed_skipped_witness :
    getHederaHashes none
        ([HEvent.message goodMsg] ++ HEvent.message badMsg :: []) =
      getHederaHashes none ([HEvent.message goodMsg] ++ []) ∧
    getHederaHashes none [HEvent.message goodMsg] =
      Except.ok [⟨organTag, aaHash⟩] := by
  have h := c5_malformed_skipped none [HEvent.message goodMsg] [] badMsg
    (by decide)
  exact ⟨h.1, h.2 [HEvent.message goodMsg] (by decide) (fun n hn => nomatch hn)⟩

/-! ## Claim C7 — point verification and its stop condition -/

/-- C7 counterexample: the first delivered entry already carries the
record's recomputed hash, yet the point-verification replay consumes the
rest of the topic — the returned window still contains the later entry —
because `POST /verify` calls `getHederaHashes()` with no argument:
`expectedCount` defaults to `Infinity` and there is no hash-based stop
condition, so the replay runs to its full deadline. -/
theorem c7_counterexample :
    (ghhWindow none c7events).getD 0 ⟨blankStr, blankStr⟩ =
      ⟨patientTag, computedPatientHash patAlice⟩ ∧
    ghhWindow none c7events =
      [⟨patientTag, computedPatientHash patAlice⟩, ⟨patientTag, bbHash⟩] ∧
    postVerifyPatient c7events patAlice =
      Except.ok (pointResultPatient
        [⟨patientTag, computedPatientHash patAlice⟩, ⟨patientTag, bbHash⟩]
        patAlice) := by
  exact ⟨by decide, by decide, by decide⟩

/-- C7 (amended): point verification recomputes the record's hash and then
performs a full bounded replay — `getHederaHashes()` with no stop
condition — and decides validity by testing hash membership over the whole
returned window; it does not return at the first matching entry. -/
theorem c7_point_verification_full_replay (events : List HEvent)
    (p : PatientDoc) (hnf : ∀ e ∈ events, e ≠ HEvent.failure) :
    postVerifyPatient events p =
      Except.ok (pointResultPatient (events.filterMap decodeEvent) p) ∧
    getProp (pointResultPatient (events.filterMap decodeEvent) p) keyValid =
      JVal.bool (someHashEq (events.filterMap decodeEvent)
        (computedPatientHash p)) := by
  constructor
  · unfold postVerifyPatient
    rw [getHederaHashes_ok none events hnf (fun n hn => nomatch hn)]
  · rfl

/-- Witness for `c7_point_verification_full_replay` at the concrete
two-entry topic. -/
theorem c7_point_verification_full_replay_witness :
    postVerifyPatient c7events patAlice =
      Except.ok (pointResultPatient (c7events.filterMap decodeEvent)
        patAlice) ∧
    getProp (pointResultPatient (c7events.filterMap decodeEvent) patAlice)
        keyValid =
      JVal.bool (someHashEq (c7events.filterMap decodeEvent)
        (computedPatientHash patAlice)) :=
  c7_point_verification_full_replay c7events patAlice (by decide)

/-! ## Claim C8 — subscription release discipline -/

lemma settleOk_unsub (r : LogsRun) : (settleOk r).unsubCount = r.unsubCount := by
  rcases hr : r.settled with _ | v <;> simp [settleOk, hr]

lemma settleErr_unsub (r : LogsRun) : (settleErr r).unsubCount = r.unsubCount := by
  rcases hr : r.settled with _ | v <;> simp [settleErr, hr]

/-- Release count along a trace: every teardown trigger runs `cleanup`
once, unconditionally. -/
lemma logsRun_unsub (tr : List LogsEvent) :
    ∀ r : LogsRun,
      (tr.foldl logsStep r).unsubCount = r.unsubCount + tr.countP isTeardown := by
  induction tr with
  | nil => intro r; simp
  | cons e es ih =>
    intro r
    simp only [List.foldl_cons, List.countP_cons]
    rw [ih]
    match e with
    | LogsEvent.msgCb m => simp [logsStep, isTeardown]
    | LogsEvent.errCbMsg m => simp [logsStep, isTeardown]
    | LogsEvent.errCbFail =>
      simp [logsStep, isTeardown, settleErr_unsub, cleanup]
      omega
    | LogsEvent.completeCb =>
      simp [logsStep, isTeardown, settleOk_unsub, cleanup]
      omega
    | LogsEvent.timerFire =>
      simp [logsStep, isTeardown, settleOk_unsub, cleanup]
      omega

lemma ghhStep_unsub (ec : Option Nat) (st : GHHState) (e : HEvent) :
    (ghhStep ec st e).unsubCount = st.unsubCount := by
  cases e with
  | failure =>
    simp only [ghhStep]
    by_cases h : st.settled.isSome
    · rw [if_pos h]
    · rw [if_neg h]
  | message m =>
    simp only [ghhStep]
    by_cases h : st.settled.isSome
    · rw [if_pos h]
    · rw [if_neg h]
      split
      · rfl
      · split <;> rfl

lemma ghhFinal_unsub_aux (ec : Option Nat) (events : List HEvent) :
    ∀ st : GHHState,
      (events.foldl (ghhStep ec) st).unsubCount = st.unsubCount := by
  induction events with
  | nil => intro st; rfl
  | cons e es ih =>
    intro st
    simp only [List.foldl_cons]
    rw [ih, ghhStep_unsub]

/-- C8 counterexample: the deadline fires first (resolving with the
partial window) and the subscription-completed callback arrives
afterwards; both run `cleanup`, and with no released-once guard the
subscription is released twice on this exit. The verification endpoints'
replay, meanwhile, never releases its subscription at all. -/
theorem c8_counterexample :
    (logsRun [LogsEvent.msgCb tmA, LogsEvent.timerFire,
      LogsEvent.completeCb]).unsubCount = 2 ∧
    (logsRun [LogsEvent.msgCb tmA, LogsEvent.timerFire,
      LogsEvent.completeCb]).settled = some (Except.ok ()) ∧
    (ghhFinal none [HEvent.message goodMsg]).unsubCount = 0 := by
  exact ⟨by decide, by decide, by decide⟩

/-- C8 (amended): in the `GET /logs` engine each teardown trigger
(deadline, completion, transport error) releases the subscription exactly
once per firing, so the number of releases equals the number of triggers
that fired — there is no released-once guard capping it at one — and the
replay used by the verification endpoints (`getHederaHashes`) performs no
release on any exit path. -/
theorem c8_release_counts (tr : List LogsEvent) :
    (logsRun tr).unsubCount = tr.countP isTeardown ∧
    ∀ (ec : Option Nat) (events : List HEvent),
      (ghhFinal ec events).unsubCount = 0 := by
  constructor
  · unfold logsRun
    rw [logsRun_unsub]
    simp [logsRunInit]
  · intro ec events
    unfold ghhFinal
    rw [ghhFinal_unsub_aux]
    rfl

/-! ## Claim C9 — anchor submission awaited before the store create -/

/-- C9: the write handlers await the ledger submission before the store
create. If the submission throws, the catch block answers 500 and the
store is unchanged — no record is created; and whenever the store did
change, the submission had succeeded and the response is 201. -/
theorem c9_anchor_before_store (storeP : List PatientDoc)
    (storeO : List OrganDoc) (body : JObj) (newId : String)
    (createOk : Bool) :
    postPatients storeP body newId (Except.error ()) createOk =
      (500, storeP) ∧
    postOrgans storeO body newId (Except.error ()) createOk =
      (500, storeO) ∧
    (∀ submit : Except Unit String,
      (postPatients storeP body newId submit createOk).2 ≠ storeP →
      submit.isOk = true ∧
        (postPatients storeP body newId submit createOk).1 = 201) ∧
    (∀ submit : Except Unit String,
      (postOrgans storeO body newId submit createOk).2 ≠ storeO →
      submit.isOk = true ∧
        (postOrgans storeO body newId submit createOk).1 = 201) := by
  refine ⟨rfl, rfl, ?_, ?_⟩
  · intro submit hne
    match submit with
    | Except.error _ => exact absurd rfl hne
    | Except.ok tx =>
      cases createOk with
      | true => exact ⟨rfl, rfl⟩
      | false => exact absurd rfl hne
  · intro submit hne
    match submit with
    | Except.error _ => exact absurd rfl hne
    | Except.ok tx =>
      cases createOk with
      | true => exact ⟨rfl, rfl⟩
      | false => exact absurd rfl hne

/-- Witness for `c9_anchor_before_store`: a failed submission leaves the
empty store empty with a 500; a successful submission and create answer
201. -/
theorem c9_anchor_before_store_witness :
    postPatients [] bodyAlice pidLit (Except.error ()) true = (500, []) ∧
    (postPatients [] bodyAlice pidLit (Except.ok txLit) true).1 = 201 :=
  ⟨(c9_anchor_before_store [] [] bodyAlice pidLit true).1,
   ((c9_anchor_before_store [] [] bodyAlice pidLit true).2.2.1
      (Except.ok txLit) (by decide)).2⟩

/-! ## Claim C10 — validity is hash membership alone, type tag ignored -/

lemma getProp_patientResult_valid (logs : List LogEntry) (p : PatientDoc) :
    getProp (patientResult logs p) keyValid =
      JVal.bool (hashSetHas logs (computedPatientHash p)) := rfl

lemma getProp_organResult_valid (logs : List LogEntry) (o : OrganDoc) :
    getProp (organResult logs o) keyValid =
      JVal.bool (hashSetHas logs (computedOrganHash o)) := rfl

lemma getProp_pointResultPatient_valid (logs : List LogEntry) (p : PatientDoc) :
    getProp (pointResultPatient logs p) keyValid =
      JVal.bool (someHashEq logs (computedPatientHash p)) := rfl

lemma getProp_pointResultOrgan_valid (logs : List LogEntry) (o : OrganDoc) :
    getProp (pointResultOrgan logs o) keyValid =
      JVal.bool (someHashEq logs (computedOrganHash o)) := rfl

lemma hashSetHas_iff (logs : List LogEntry) (h : String) :
    hashSetHas logs h = true ↔ ∃ l ∈ logs, l.hash = h := by
  unfold hashSetHas
  rw [List.contains_iff_exists_mem_beq]
  constructor
  · rintro ⟨s, hs, hb⟩
    rcases List.mem_map.mp hs with ⟨l, hl, rfl⟩
    exact ⟨l, hl, (beq_iff_eq.mp hb).symm⟩
  · rintro ⟨l, hl, hh⟩
    refine ⟨l.hash, List.mem_map_of_mem _ hl, ?_⟩
    rw [hh]
    exact beq_self_eq_true h

lemma someHashEq_iff (logs : List LogEntry) (h : String) :
    someHashEq logs h = true ↔ ∃ l ∈ logs, l.hash = h := by
  unfold someHashEq
  rw [List.any_eq_true]
  constructor
  · rintro ⟨l, hl, hb⟩
    exact ⟨l, hl, beq_iff_eq.mp hb⟩
  · rintro ⟨l, hl, hh⟩
    exact ⟨l, hl, beq_iff_eq.mpr hh⟩

/-- C10: both verification modes decide validity by hash membership alone:
`valid` is true iff some replayed entry's hash equals the record's
recomputed hash — the entry's type tag plays no role, so in particular an
entry whose tag does not match the record's variant still validates it. -/
theorem c10_validity_is_hash_membership (logs : List LogEntry)
    (p : PatientDoc) (o : OrganDoc) :
    (getProp (patientResult logs p) keyValid = JVal.bool true ↔
      ∃ l ∈ logs, l.hash = computedPatientHash p) ∧
    (getProp (organResult logs o) keyValid = JVal.bool true ↔
      ∃ l ∈ logs, l.hash = computedOrganHash o) ∧
    (getProp (pointResultPatient logs p) keyValid = JVal.bool true ↔
      ∃ l ∈ logs, l.hash = computedPatientHash p) ∧
    (getProp (pointResultOrgan logs o) keyValid = JVal.bool true ↔
      ∃ l ∈ logs, l.hash = computedOrganHash o) ∧
    ∀ l : LogEntry, l ∈ logs → l.hash = computedPatientHash p →
      getProp (patientResult logs p) keyValid = JVal.bool true := by
  refine ⟨?_, ?_, ?_, ?_, ?_⟩
  · rw [getProp_patientResult_valid]
    simp only [JVal.bool.injEq]
    exact hashSetHas_iff logs (computedPatientHash p)
  · rw [getProp_organResult_valid]
    simp only [JVal.bool.injEq]
    exact hashSetHas_iff logs (computedOrganHash o)
  · rw [getProp_pointResultPatient_valid]
    simp only [JVal.bool.injEq]
    exact someHashEq_iff logs (computedPatientHash p)
  · rw [getProp_pointResultOrgan_valid]
    simp only [JVal.bool.injEq]
    exact someHashEq_iff logs (computedOrganHash o)
  · intro l hl hh
    rw [getProp_patientResult_valid]
    simp only [JVal.bool.injEq]
    exact (hashSetHas_iff logs (computedPatientHash p)).mpr ⟨l, hl, hh⟩

/-- Witness for `c10_validity_is_hash_membership`: an ORGAN-tagged ledger
entry carrying the patient's hash makes `GET /verify` report the patient
valid. -/
theorem c10_validity_is_hash_membership_witness :
    getProp (patientResult [organTaggedAnchor] patAlice) keyValid =
      JVal.bool true :=
  (c10_validity_is_hash_membership [organTaggedAnchor] patAlice
    orgKidney).2.2.2.2 organTaggedAnchor (List.Mem.head _) rfl

/-! ## Claim C3 — no `replayComplete` in reconciliation results -/

/-- C3 counterexample: with an empty replay window, the bulk-verification
result for a stored patient has `valid = false`, yet it carries no
`replayComplete` field at all — its keys are exactly
`record, id, valid, computedHash` — so the caller cannot distinguish a
confident negative from an inconclusive one. -/
theorem c3_counterexample :
    bulkVerifyResults [] [patAlice] [] = [patientResult [] patAlice] ∧
    getProp (patientResult [] patAlice) keyValid = JVal.bool false ∧
    getProp (patientResult [] patAlice) keyReplayComplete = JVal.undef ∧
    (patientResult [] patAlice).map Prod.fst =
      [keyRecord, keyId, keyValid, keyComputedHash] := by
  exact ⟨rfl, rfl, rfl, rfl⟩

/-- C3 (amended): every result object bulk verification returns — valid or
not — has exactly the keys `record, id, valid, computedHash`; no
`replayComplete` (or any other replay-status) field is reported. -/
theorem c3_no_replay_complete_field (logs : List LogEntry)
    (patients : List PatientDoc) (organs : List OrganDoc) (r : JObj)
    (hr : r ∈ bulkVerifyResults logs patients organs) :
    r.map Prod.fst = [keyRecord, keyId, keyValid, keyComputedHash] ∧
    getProp r keyReplayComplete = JVal.undef := by
  rcases List.mem_append.mp hr with h | h
  · rcases List.mem_map.mp h with ⟨p, _, rfl⟩
    exact ⟨rfl, rfl⟩
  · rcases List.mem_map.mp h with ⟨o, _, rfl⟩
    exact ⟨rfl, rfl⟩

/-- Witness for `c3_no_replay_complete_field` at the singleton store. -/
theorem c3_no_replay_complete_field_witness :
    (patientResult [] patAlice).map Prod.fst =
      [keyRecord, keyId, keyValid, keyComputedHash] ∧
    getProp (patientResult [] patAlice) keyReplayComplete = JVal.undef :=
  c3_no_replay_complete_field [] [patAlice] [] (patientResult [] patAlice)
    (List.Mem.head _)

end XHack
